import Mathlib

/-!
Verification development for the storefront's two engines: the catalog query
engine (search / sort / paginate over an in-memory product collection) and the
cart consistency engine (a persisted list of line items reconciled against the
live catalog).  Definitions are shallow embeddings of the JavaScript source
(`api.js`, `cart.js`): JavaScript numbers that hold prices, ratings and
timestamps become rationals, integer counts become naturals, nullable values
become `Option`, thrown exceptions become explicit error results, and the
wall clock becomes an explicit `now` parameter.
-/

/-- A normalized catalog product, as produced by `processProducts` in `api.js`.
`specs` is the mapping string→string (modeled as an association list, value
order being `Object.values` order).  The derived flag `inStock = stock > 0` is
recomputed at normalization time and never mutated independently, so it is
modeled as a function below rather than a stored field. -/
structure Product where
  id : String
  name : String
  description : String
  category : String
  price : ℚ
  rating : ℚ
  stock : ℕ
  popularity : ℕ
  images : List String
  specs : List (String × String)
deriving DecidableEq

/-- Derived field `inStock: (product.stock || 0) > 0` from `processProducts`. -/
def Product.inStock (p : Product) : Bool :=
  decide (0 < p.stock)

/-- Embedding of `getProductById`: linear scan, `null` (here `none`) when absent. -/
def getProductById (products : List Product) (productId : String) : Option Product :=
  products.find? (fun p => p.id == productId)

/-! ### Search (`ProductAPI.searchProducts`) -/

/-- Whether `needle` occurs contiguously in `hay` starting at the head
(the base step of JavaScript `String.prototype.includes`). -/
def startsWithSeq : List Char → List Char → Bool
  | _, [] => true
  | [], _ :: _ => false
  | x :: xs, y :: ys => x = y && startsWithSeq xs ys

/-- Whether `needle` occurs contiguously somewhere in `hay`
(JavaScript `hay.includes(needle)`); strings are handled as their character
sequences throughout the search embedding. -/
def containsSeq (needle : List Char) : List Char → Bool
  | [] => needle.isEmpty
  | x :: rest => startsWithSeq (x :: rest) needle || containsSeq needle rest

/-- Embedding of `query.toLowerCase().trim().split(/\s+/)`: the query's search tokens.
Trimming and then splitting on whitespace runs yields exactly the maximal
non-whitespace runs, i.e. the non-empty pieces of a split at every
whitespace character. -/
def tokenize (query : String) : List (List Char) :=
  ((query.data.map Char.toLower).splitOnP (·.isWhitespace)).filter (· ≠ [])

/-- The per-product searchable string of `searchProducts`:
`[name, description, category, ...Object.values(specs).join(' ').split(' ')].join(' ').toLowerCase()`. -/
def searchableText (p : Product) : List Char :=
  (List.intercalate [' ']
    ([p.name.data, p.description.data, p.category.data] ++
      (List.intercalate [' '] (p.specs.map (fun kv => kv.2.data))).splitOn ' ')).map
    Char.toLower

/-- Embedding of `ProductAPI.searchProducts`: an empty or whitespace-only query
(`!query || query.trim() === ''`) returns the collection unchanged; otherwise
keep the products on which every token is a substring of the searchable
string. -/
def searchProducts (products : List Product) (query : String) : List Product :=
  if query.data.all (·.isWhitespace) then products
  else
    let searchTerms := tokenize query
    products.filter (fun p => searchTerms.all (fun t => containsSeq t (searchableText p)))

/-! ### Sort (`ProductAPI.sortProducts`) -/

/-- Stable insertion into a sorted list: the new element (earlier in the input)
is placed before any element it ties with.  Together with `sortStable` this
models the engine's stable ascending sort (`Array.prototype.sort` is stable;
any stable sort of a total preorder produces the same sequence). -/
def insertLe (le : α → α → Bool) (x : α) : List α → List α
  | [] => [x]
  | y :: ys => if le x y then x :: y :: ys else y :: insertLe le x ys

/-- Stable sort by a boolean `le` comparator. -/
def sortStable (le : α → α → Bool) : List α → List α
  | [] => []
  | x :: xs => insertLe le x (sortStable le xs)

/-- The ascending comparator selected by the `switch (sortBy)` in
`sortProducts`; every key other than price/rating/name falls through to the
popularity default. -/
def sortKeyLe (sortBy : String) : Product → Product → Bool :=
  match sortBy with
  | "price" => fun a b => decide (a.price ≤ b.price)
  | "rating" => fun a b => decide (a.rating ≤ b.rating)
  | "name" => fun a b => decide (a.name ≤ b.name)
  | _ => fun a b => decide (a.popularity ≤ b.popularity)

/-- Embedding of `ProductAPI.sortProducts`: sort ascending by the selected comparator, then
reverse the whole sequence when `order === 'desc'`. -/
def sortProducts (products : List Product) (sortBy : String) (order : String) :
    List Product :=
  let sorted := sortStable (sortKeyLe sortBy) products
  if order = "desc" then sorted.reverse else sorted

/-- Descending sort obtained by a negated (flipped) comparator instead of by
reversing.  Modelled from the spec's words ("not by negating the comparator")
purely as the foil the spec contrasts `sortProducts` with. -/
def sortDescByNegatedComparator (products : List Product) (sortBy : String) :
    List Product :=
  sortStable (fun a b => sortKeyLe sortBy b a) products

/-! ### Paginate (`ProductAPI.paginateProducts`) -/

/-- The record returned by `paginateProducts`. -/
structure PageResult where
  items : List Product
  page : ℕ
  perPage : ℕ
  total : ℕ
  totalPages : ℕ
  hasNext : Bool
  hasPrev : Bool
deriving DecidableEq

/-- Embedding of `ProductAPI.paginateProducts` for a 1-based `page`:
`slice[(page-1)*perPage, (page-1)*perPage + perPage)`, with
`totalPages = ceil(total / perPage)` (the rounded-up natural division;
`perPage ≥ 1` keeps the JavaScript float division finite). -/
def paginateProducts (products : List Product) (page : ℕ) (perPage : ℕ) :
    PageResult :=
  let startIndex := (page - 1) * perPage
  let endIndex := startIndex + perPage
  { items := (products.drop startIndex).take perPage
    page := page
    perPage := perPage
    total := products.length
    totalPages := (products.length + perPage - 1) / perPage
    hasNext := decide (endIndex < products.length)
    hasPrev := decide (1 < page) }

/-! ### Cart data model (`cart.js`) -/

/-- Constant `CART_CONFIG.MAX_QUANTITY`. -/
def MAX_QUANTITY : ℕ := 10

/-- Constant `CART_CONFIG.TAX_RATE` (8%). -/
def TAX_RATE : ℚ := 8 / 100

/-- Constant `CART_CONFIG.SHIPPING_THRESHOLD` (free shipping over $50). -/
def SHIPPING_THRESHOLD : ℚ := 50

/-- Constant `CART_CONFIG.SHIPPING_COST` ($9.99). -/
def SHIPPING_COST : ℚ := 999 / 100

/-- The product snapshot cached on a cart line at add time
("Cache product data for offline access"). -/
structure Snapshot where
  id : String
  name : String
  price : ℚ
  images : List String
  category : String
  inStock : Bool
deriving DecidableEq

/-- One cart line item.  `product` is the add-time snapshot (`none` models a
line imported/merged without one); timestamps are epoch milliseconds. -/
structure CartItem where
  id : String
  quantity : ℕ
  addedAt : ℚ
  updatedAt : ℚ
  product : Option Snapshot
deriving DecidableEq

/-- The persisted cart record under `CART_CONFIG.STORAGE_KEY`.  `corrupt`
models an unparsable blob (JSON.parse throws); in `blob`, `items := none`
models a parsed record whose `items` field is absent or not an array, and
`savedAt := none` a missing/invalid date (whose age comparison is then the
always-false NaN comparison). -/
inductive StoredCart where
  | corrupt : StoredCart
  | blob (items : Option (List CartItem)) (savedAt : Option ℚ) : StoredCart
deriving DecidableEq

/-- The cart's in-memory items together with the localStorage slot. -/
structure CartState where
  items : List CartItem
  storage : Option StoredCart
deriving DecidableEq

/-- Embedding of `saveToStorage`: persist `{ items, savedAt: now }`. -/
def saveStorage (now : ℚ) (items : List CartItem) : Option StoredCart :=
  some (.blob (some items) (some now))

/-- The cart error taxonomy (each `throw new Error(...)` site in `cart.js`). -/
inductive CartError where
  | invalidInput : CartError
  | productNotFound : CartError
  | outOfStock : CartError
  | stockExceeded : CartError
  | quantityLimit : CartError
  | itemNotFound : CartError
deriving DecidableEq

/-- Embedding of `getItemQuantity`: quantity of the first line with this id, else 0. -/
def getItemQuantity (items : List CartItem) (productId : String) : ℕ :=
  match items.find? (fun item => item.id == productId) with
  | some item => item.quantity
  | none => 0

/-- Mutate the first element satisfying `p` in place
(`findIndex` followed by an indexed assignment). -/
def updateFirst (p : α → Bool) (f : α → α) : List α → List α
  | [] => []
  | x :: xs => if p x then f x :: xs else x :: updateFirst p f xs

/-- Remove the first element satisfying `p` (`findIndex` + `splice(i, 1)`). -/
def eraseFirst (p : α → Bool) : List α → List α
  | [] => []
  | x :: xs => if p x then xs else x :: eraseFirst p xs

/-- The snapshot `addItem` caches on a freshly created line. -/
def snapshotOf (product : Product) : Snapshot :=
  { id := product.id
    name := product.name
    price := product.price
    images := product.images
    category := product.category
    inStock := product.inStock }

/-! ### Cart mutations (`Cart.addItem` / `removeItem` / `updateItemQuantity`) -/

/-- Embedding of `Cart.addItem(productId, quantity)`: validations in source order
(invalid input, product lookup, `inStock`, stock bound on existing+requested,
fixed maximum), then merge into the existing line or append a new snapshot
line, then persist.  All throws happen before any mutation, so every error
branch carries the input state unchanged. -/
def addItem (catalog : List Product) (now : ℚ) (st : CartState)
    (productId : String) (quantity : ℕ) : Except CartError Bool × CartState :=
  if productId = "" ∨ quantity < 1 then (.error .invalidInput, st)
  else
    match getProductById catalog productId with
    | none => (.error .productNotFound, st)
    | some product =>
      if !product.inStock then (.error .outOfStock, st)
      else
        let currentQuantity := getItemQuantity st.items productId
        let newQuantity := currentQuantity + quantity
        if product.stock < newQuantity then (.error .stockExceeded, st)
        else if MAX_QUANTITY < newQuantity then (.error .quantityLimit, st)
        else
          let items' :=
            if st.items.any (fun item => item.id == productId) then
              updateFirst (fun item => item.id == productId)
                (fun item => { item with quantity := newQuantity, updatedAt := now })
                st.items
            else
              st.items ++ [{ id := product.id, quantity := quantity,
                             addedAt := now, updatedAt := now,
                             product := some (snapshotOf product) }]
          (.ok true, { items := items', storage := saveStorage now items' })

/-- Embedding of `Cart.removeItem(productId, quantity = null)`: `none` (or a count at least
the line's quantity) deletes the line; a smaller count decrements it; a
missing product id is a `false` no-op.  Every successful branch persists. -/
def removeItem (now : ℚ) (st : CartState) (productId : String)
    (quantity : Option ℕ) : Bool × CartState :=
  match st.items.find? (fun item => item.id == productId) with
  | none => (false, st)
  | some item =>
    let removeAll :=
      match quantity with
      | none => true
      | some q => decide (item.quantity ≤ q)
    if removeAll then
      let items' := eraseFirst (fun i => i.id == productId) st.items
      (true, { items := items', storage := saveStorage now items' })
    else
      let items' := updateFirst (fun i => i.id == productId)
        (fun i => { i with quantity := i.quantity - quantity.getD 0, updatedAt := now })
        st.items
      (true, { items := items', storage := saveStorage now items' })

/-- Embedding of `Cart.updateItemQuantity(productId, quantity)`: validations in source
order (invalid input, fixed maximum, presence in cart, stock bound when the
live product resolves), quantity 0 delegating to full removal, otherwise an
in-place quantity update followed by persistence. -/
def updateItemQuantity (catalog : List Product) (now : ℚ) (st : CartState)
    (productId : String) (quantity : ℕ) : Except CartError Bool × CartState :=
  if productId = "" then (.error .invalidInput, st)
  else if MAX_QUANTITY < quantity then (.error .quantityLimit, st)
  else
    match st.items.find? (fun item => item.id == productId) with
    | none => (.error .itemNotFound, st)
    | some _ =>
      let stockOk :=
        match getProductById catalog productId with
        | some product => decide (quantity ≤ product.stock)
        | none => true
      if !stockOk then (.error .stockExceeded, st)
      else if quantity = 0 then
        let r := removeItem now st productId none
        (.ok r.1, r.2)
      else
        let items' := updateFirst (fun item => item.id == productId)
          (fun item => { item with quantity := quantity, updatedAt := now })
          st.items
        (.ok true, { items := items', storage := saveStorage now items' })

/-! ### Cart views (`Cart.getCartItems` / `Cart.getCartSummary`) -/

/-- One entry of `getCartItems()`: the line joined with its resolved product
(live catalog first, stored snapshot as fallback).  Only the fields consumed
downstream (price, stock flag, per-line subtotal) are carried. -/
structure CartItemView where
  id : String
  quantity : ℕ
  price : ℚ
  inStock : Bool
  subtotal : ℚ
deriving DecidableEq

/-- Embedding of `Cart.getCartItems`: join each line against the live catalog, fall back to
the cached snapshot, and silently skip lines that resolve against neither. -/
def getCartItems (catalog : List Product) (items : List CartItem) :
    List CartItemView :=
  items.filterMap (fun cartItem =>
    match getProductById catalog cartItem.id with
    | some product =>
        some { id := cartItem.id, quantity := cartItem.quantity,
               price := product.price, inStock := product.inStock,
               subtotal := (cartItem.quantity : ℚ) * product.price }
    | none =>
        match cartItem.product with
        | some snap =>
            some { id := cartItem.id, quantity := cartItem.quantity,
                   price := snap.price, inStock := snap.inStock,
                   subtotal := (cartItem.quantity : ℚ) * snap.price }
        | none => none)

/-- Embedding of `Math.round(x * 100) / 100`: round to 2 decimals, halves away from zero
upward exactly as `Math.round` (`round q = ⌊q + 1/2⌋` in Mathlib). -/
def round2 (x : ℚ) : ℚ :=
  (round (x * 100) : ℤ) / 100

/-- The record returned by `getCartSummary()`. -/
structure CartSummary where
  subtotal : ℚ
  taxAmount : ℚ
  shippingCost : ℚ
  total : ℚ
  itemCount : ℕ
  items : ℕ
  freeShippingEligible : Bool
  freeShippingRemaining : ℚ
deriving DecidableEq

/-- Embedding of `Cart.getCartSummary`: aggregate the joined lines; shipping from the raw
subtotal against the $50 threshold, tax at 8%, all monetary outputs rounded
to 2 decimals only here, at the point of aggregation. -/
def getCartSummary (catalog : List Product) (items : List CartItem) :
    CartSummary :=
  let its := getCartItems catalog items
  let subtotal := (its.map (·.subtotal)).sum
  let itemCount := (its.map (·.quantity)).sum
  let shippingCost := if SHIPPING_THRESHOLD ≤ subtotal then 0 else SHIPPING_COST
  let taxAmount := subtotal * TAX_RATE
  let total := subtotal + shippingCost + taxAmount
  { subtotal := round2 subtotal
    taxAmount := round2 taxAmount
    shippingCost := round2 shippingCost
    total := round2 total
    itemCount := itemCount
    items := its.length
    freeShippingEligible := decide (SHIPPING_THRESHOLD ≤ subtotal)
    freeShippingRemaining := max 0 (SHIPPING_THRESHOLD - subtotal) }

/-! ### Cart reconciliation (`Cart.validateCart`) -/

/-- An entry of the validation report's `invalidItems`. -/
structure InvalidEntry where
  id : String
  name : String
deriving DecidableEq

/-- An entry of the validation report's `outOfStockItems`. -/
structure OutOfStockEntry where
  id : String
  name : String
  currentQuantity : ℕ
deriving DecidableEq

/-- An entry of the validation report's `updatedItems`. -/
structure UpdatedEntry where
  id : String
  name : String
  oldQuantity : ℕ
  newQuantity : ℕ
deriving DecidableEq

/-- The validation report returned by `validateCart()`. -/
structure ValidationReport where
  isValid : Bool
  invalidItems : List InvalidEntry
  outOfStockItems : List OutOfStockEntry
  updatedItems : List UpdatedEntry
deriving DecidableEq

/-- Embedding of `cartItem.product?.name || 'Unknown Product'` (JavaScript truthiness:
an empty snapshot name also falls back). -/
def snapshotName (cartItem : CartItem) : String :=
  match cartItem.product with
  | some snap => if snap.name = "" then "Unknown Product" else snap.name
  | none => "Unknown Product"

/-- The `for (const cartItem of this.items)` loop of `validateCart`:
classify each line into invalid / out-of-stock / clamped / kept, in order. -/
def validateLoop (catalog : List Product) (now : ℚ) :
    List CartItem →
      List InvalidEntry × List OutOfStockEntry × List UpdatedEntry × List CartItem
  | [] => ([], [], [], [])
  | cartItem :: rest =>
    let (inv, oos, upd, valid) := validateLoop catalog now rest
    match getProductById catalog cartItem.id with
    | none =>
        ({ id := cartItem.id, name := snapshotName cartItem } :: inv, oos, upd, valid)
    | some product =>
        if !product.inStock then
          (inv, { id := cartItem.id, name := product.name,
                  currentQuantity := cartItem.quantity } :: oos, upd, valid)
        else if product.stock < cartItem.quantity then
          (inv, oos,
           { id := cartItem.id, name := product.name,
             oldQuantity := cartItem.quantity, newQuantity := product.stock } :: upd,
           { cartItem with quantity := product.stock, updatedAt := now } :: valid)
        else
          (inv, oos, upd, cartItem :: valid)

/-- Embedding of `Cart.validateCart`: run the classification loop, replace the cart's items
with the surviving (possibly clamped) lines, mark the report invalid exactly
when some line was dropped, and persist the post-reconciliation set. -/
def validateCart (catalog : List Product) (now : ℚ) (st : CartState) :
    ValidationReport × CartState :=
  let (inv, oos, upd, valid) := validateLoop catalog now st.items
  let isValid := if 0 < inv.length ∨ 0 < oos.length then false else true
  ({ isValid := isValid, invalidItems := inv, outOfStockItems := oos,
     updatedItems := upd },
   { items := valid, storage := saveStorage now valid })

/-! ### Merge / export / import / load (`cart.js`) -/

/-- Embedding of `Cart.mergeCart(cartData)`: a non-array argument is a silent no-op;
otherwise each incoming line either raises an existing line's quantity to the
maximum of the two or is appended as new, and the result is persisted. -/
def mergeCart (now : ℚ) (st : CartState) (cartData : Option (List CartItem)) :
    CartState :=
  match cartData with
  | none => st
  | some newItems =>
    let items' := newItems.foldl (fun acc newItem =>
      if acc.any (fun item => item.id == newItem.id) then
        updateFirst (fun item => item.id == newItem.id)
          (fun item => { item with
                         quantity := max item.quantity newItem.quantity,
                         updatedAt := now }) acc
      else
        acc ++ [{ newItem with addedAt := now, updatedAt := now }]) st.items
    { items := items', storage := saveStorage now items' }

/-- The blob produced by `exportCart()` and consumed by `importCart(blob)`.
`items := none` models a blob whose `items` field is absent or not an array. -/
structure CartExport where
  items : Option (List CartItem)
  exportedAt : ℚ
  version : String
deriving DecidableEq

/-- Embedding of `Cart.exportCart`. -/
def exportCart (now : ℚ) (st : CartState) : CartExport :=
  { items := some st.items, exportedAt := now, version := "1.0" }

/-- Embedding of `Cart.importCart(cartData)`: a missing blob or a wrong-shaped `items`
field fails with `false` (the caught `Invalid cart data` throw) and leaves the
prior state untouched; otherwise the whole collection is replaced and
persisted. -/
def importCart (now : ℚ) (st : CartState) (cartData : Option CartExport) :
    Bool × CartState :=
  match cartData with
  | none => (false, st)
  | some d =>
    match d.items with
    | none => (false, st)
    | some items => (true, { items := items, storage := saveStorage now items })

/-- Embedding of `Cart.loadFromStorage`: no stored record yields an empty cart (no write);
an unparsable or wrong-shaped record is caught requiring a reset that is
immediately persisted; a record older than 30 days (by `savedAt`, in days of
86400000 ms) is likewise discarded and the empty default persisted; otherwise
the stored items are adopted unchanged.  The `try`/`catch` makes the
operation total: no exception ever reaches the caller. -/
def loadFromStorage (now : ℚ) (stored : Option StoredCart) :
    List CartItem × Option StoredCart :=
  match stored with
  | none => ([], stored)
  | some .corrupt => ([], saveStorage now [])
  | some (.blob none _) => ([], saveStorage now [])
  | some (.blob (some items) savedAt) =>
    let expired :=
      match savedAt with
      | some t => decide (30 < (now - t) / 86400000)
      | none => false
    if expired then ([], saveStorage now [])
    else (items, stored)

/-! ### Spec-side reference functions and invariants -/

/-- Modelled from the spec (§4.4): the fate of one line item under
reconciliation — dropped when the product is gone or out of stock, clamped to
current stock when over it, otherwise kept unchanged.  Declarative reference
for `validateCart`. -/
def specKeepLine (catalog : List Product) (now : ℚ) (item : CartItem) :
    Option CartItem :=
  match getProductById catalog item.id with
  | none => none
  | some product =>
    if !product.inStock then none
    else if product.stock < item.quantity then
      some { item with quantity := product.stock, updatedAt := now }
    else some item

/-- Modelled from the spec (§4.4): the `invalidItems` entry a line yields —
`some` exactly when its product no longer exists in the catalog. -/
def specInvalidOf (catalog : List Product) (item : CartItem) :
    Option InvalidEntry :=
  match getProductById catalog item.id with
  | none => some { id := item.id, name := snapshotName item }
  | some _ => none

/-- Modelled from the spec (§4.4): the `outOfStockItems` entry a line yields —
`some` exactly when its product exists but is out of stock. -/
def specOutOfStockOf (catalog : List Product) (item : CartItem) :
    Option OutOfStockEntry :=
  match getProductById catalog item.id with
  | none => none
  | some product =>
    if !product.inStock then
      some { id := item.id, name := product.name, currentQuantity := item.quantity }
    else none

/-- Modelled from the spec (§4.4): the `updatedItems` entry a line yields —
`some` exactly when its product is in stock but the quantity exceeds it. -/
def specUpdatedOf (catalog : List Product) (item : CartItem) :
    Option UpdatedEntry :=
  match getProductById catalog item.id with
  | none => none
  | some product =>
    if !product.inStock then none
    else if product.stock < item.quantity then
      some { id := item.id, name := product.name,
             oldQuantity := item.quantity, newQuantity := product.stock }
    else none

/-- Modelled from the spec (§4.4): a line is dropped by reconciliation when
its product is gone or out of stock. -/
def specDropped (catalog : List Product) (item : CartItem) : Bool :=
  match getProductById catalog item.id with
  | none => true
  | some product => !product.inStock

/-- The exact (unrounded) sum of `quantity * live price` over the cart's
lines, the quantity never rounded per line; reference value for the summary
aggregates when every line resolves in the live catalog. -/
def subtotalOf (catalog : List Product) (items : List CartItem) : ℚ :=
  (items.map (fun item =>
    (item.quantity : ℚ) *
      (match getProductById catalog item.id with
       | some product => product.price
       | none => 0))).sum

/-- The spec's CartItem invariant for a single line (§3): positive quantity,
at most `MAX_QUANTITY`, and at most the live product's stock whenever the
live product is resolvable. -/
def itemInvB (catalog : List Product) (item : CartItem) : Bool :=
  decide (0 < item.quantity) && decide (item.quantity ≤ MAX_QUANTITY) &&
    (match getProductById catalog item.id with
     | some product => decide (item.quantity ≤ product.stock)
     | none => true)

/-- The spec's cart invariant (§3): every line satisfies `itemInvB` and there
is at most one line per product id. -/
def CartInv (catalog : List Product) (items : List CartItem) : Prop :=
  (∀ item ∈ items, itemInvB catalog item = true) ∧
    (items.map (fun item => item.id)).Nodup

/-! ### Concrete fixtures used by witnesses and counterexamples -/

/-- A default product record all fixture products are built from. -/
def baseProduct : Product :=
  { id := "", name := "", description := "", category := "accessories",
    price := 0, rating := 0, stock := 0, popularity := 0, images := [],
    specs := [] }

/-- Three products with a duplicate price (the spec's duplicate-price
fixture for the descending tie-break behavior). -/
def tieProducts : List Product :=
  [{ baseProduct with id := "t1", name := "A", price := 5, stock := 1 },
   { baseProduct with id := "t2", name := "B", price := 5, stock := 1 },
   { baseProduct with id := "t3", name := "C", price := 3, stock := 1 }]

/-- Search fixture: one product matching `red` and `phone`, one matching only
`red`, one matching neither. -/
def searchFixture : List Product :=
  [{ baseProduct with id := "s1", name := "Red Phone", stock := 1 },
   { baseProduct with id := "s2", description := "a red case", stock := 1 },
   { baseProduct with id := "s3", name := "Blue Watch", stock := 1 }]

/-- A 7-product list (the spec's 7-item pagination fixture). -/
def pageFixture : List Product :=
  [{ baseProduct with id := "g1" }, { baseProduct with id := "g2" },
   { baseProduct with id := "g3" }, { baseProduct with id := "g4" },
   { baseProduct with id := "g5" }, { baseProduct with id := "g6" },
   { baseProduct with id := "g7" }]

/-- The `addItem` stock fixture: a product with `stock = 5`. -/
def stockFixtureProduct : Product :=
  { baseProduct with id := "p1", name := "Pixel", price := 10, stock := 5 }

/-- The catalog of the `addItem` stock fixture. -/
def stockFixtureCatalog : List Product :=
  [stockFixtureProduct]

/-- A bare cart line (no snapshot) with the given id and quantity. -/
def plainItem (id : String) (quantity : ℕ) : CartItem :=
  { id := id, quantity := quantity, addedAt := 0, updatedAt := 0, product := none }

/-- A cart holding 4 units of the stock-5 fixture product. -/
def stockFixtureCart : CartState :=
  { items := [plainItem "p1" 4], storage := none }

/-- Catalog for the summary fixtures: a $49.99 product and a $50 product. -/
def summaryCatalog : List Product :=
  [{ baseProduct with id := "m1", name := "M1", price := 4999 / 100, stock := 9 },
   { baseProduct with id := "m2", name := "M2", price := 50, stock := 9 }]

/-! ## Helper lemmas -/

/-- Rounded-up division: `(n + m - 1) / m ≤ k` exactly when `n ≤ k * m`. -/
theorem ceilDiv_le_iff {n m k : ℕ} (hm : 1 ≤ m) :
    (n + m - 1) / m ≤ k ↔ n ≤ k * m := by
  rw [Nat.div_le_iff_le_mul_add_pred hm, Nat.mul_comm,
    Nat.add_sub_assoc hm, Nat.add_le_add_iff_right]

/-! ## C6: pagination -/

/-- C6: for a 1-based `page` and positive `perPage`, `paginateProducts`
returns exactly the slice `[(page-1)*perPage, page*perPage)` as `items`,
`total` equal to the input length, `totalPages = ceil(total/perPage)`
(characterized by its Galois property), `hasNext` true iff
`page*perPage < total`, `hasPrev` true iff `page > 1`, and an out-of-range
page yields an empty `items` slice (no error is possible: the function is
total). -/
theorem spec2proof_C6 (l : List Product) (page perPage : ℕ)
    (hpage : 1 ≤ page) (hper : 1 ≤ perPage) :
    (paginateProducts l page perPage).total = l.length ∧
    (paginateProducts l page perPage).items.length
      = min perPage (l.length - (page - 1) * perPage) ∧
    (∀ i, i < (paginateProducts l page perPage).items.length →
      (paginateProducts l page perPage).items[i]? = l[(page - 1) * perPage + i]?) ∧
    (∀ k, l.length ≤ k * perPage ↔ (paginateProducts l page perPage).totalPages ≤ k) ∧
    (paginateProducts l page perPage).hasNext = decide (page * perPage < l.length) ∧
    (paginateProducts l page perPage).hasPrev = decide (1 < page) ∧
    (l.length ≤ (page - 1) * perPage → (paginateProducts l page perPage).items = []) := by
  have hmul : (page - 1) * perPage + perPage = page * perPage := by
    cases page with
    | zero => exact absurd hpage (by simp)
    | succ n => simp [Nat.succ_sub_one, Nat.succ_mul]
  refine ⟨rfl, ?_, ?_, ?_, ?_, rfl, ?_⟩
  · simp [paginateProducts]
  · intro i hi
    simp only [paginateProducts] at hi ⊢
    rw [List.getElem?_take, if_pos, List.getElem?_drop]
    simp only [List.length_take, List.length_drop] at hi
    exact lt_of_lt_of_le hi (Nat.min_le_left _ _)
  · intro k
    exact (ceilDiv_le_iff hper).symm
  · simp only [paginateProducts, hmul]
  · intro h
    simp [paginateProducts, List.drop_eq_nil_of_le h]

/-- C6 witness: the spec's 7-item fixture at `page = 2`, `perPage = 3` —
the slice starts at index 3, `hasNext`, `hasPrev`, and `totalPages = 3`. -/
theorem spec2proof_C6_witness :
    (paginateProducts pageFixture 2 3).items[0]? = pageFixture[3]? ∧
    (paginateProducts pageFixture 2 3).hasNext = true ∧
    (paginateProducts pageFixture 2 3).hasPrev = true ∧
    (paginateProducts pageFixture 2 3).totalPages = 3 := by
  refine ⟨?_, by decide, by decide, by decide⟩
  have h := (spec2proof_C6 pageFixture 2 3 (by decide) (by decide)).2.2.1 0 (by decide)
  simpa using h

/-! ## C2: descending sort is the reverse of the ascending sort -/

/-- Inserting adds one to the length. -/
theorem insertLe_length (le : α → α → Bool) (x : α) (l : List α) :
    (insertLe le x l).length = l.length + 1 := by
  induction l with
  | nil => rfl
  | cons y ys ih =>
    simp only [insertLe]
    split <;> simp [ih]

/-- The stable sort preserves the length. -/
theorem sortStable_length (le : α → α → Bool) (l : List α) :
    (sortStable le l).length = l.length := by
  induction l with
  | nil => rfl
  | cons x xs ih => simp [sortStable, insertLe_length, ih]

/-- C2: for every product list and sort key, `order = "desc"` returns exactly
the reverse of the ascending-sorted sequence; hence element `i` of the
descending result is element `length - 1 - i` of the ascending result (so
tied elements appear in the reverse of their ascending relative order); and
on the duplicate-price fixture this differs from what sorting by the negated
comparator would give. -/
theorem spec2proof_C2 :
    (∀ (products : List Product) (sortBy : String),
      sortProducts products sortBy "desc"
        = (sortProducts products sortBy "asc").reverse) ∧
    (∀ (products : List Product) (sortBy : String) (i : ℕ),
      i < (sortProducts products sortBy "asc").length →
      (sortProducts products sortBy "desc")[i]?
        = (sortProducts products sortBy "asc")[
            (sortProducts products sortBy "asc").length - 1 - i]?) ∧
    sortProducts tieProducts "price" "desc"
      ≠ sortDescByNegatedComparator tieProducts "price" := by
  have hrev : ∀ (products : List Product) (sortBy : String),
      sortProducts products sortBy "desc"
        = (sortProducts products sortBy "asc").reverse := by
    intro products sortBy
    simp [sortProducts]
  refine ⟨hrev, ?_, ?_⟩
  · intro products sortBy i hi
    rw [hrev, List.getElem?_reverse hi]
  · norm_num [sortProducts, sortDescByNegatedComparator, sortStable, insertLe,
      sortKeyLe, tieProducts, baseProduct]
    intro h
    exact absurd h (by decide)

/-- C2 witness: on the duplicate-price fixture, the head of the descending
result is the last element of the ascending result. -/
theorem spec2proof_C2_witness :
    0 < (sortProducts tieProducts "price" "asc").length ∧
    (sortProducts tieProducts "price" "desc")[0]?
      = (sortProducts tieProducts "price" "asc")[
          (sortProducts tieProducts "price" "asc").length - 1 - 0]? := by
  have hlen : 0 < (sortProducts tieProducts "price" "asc").length := by
    simp [sortProducts, sortStable_length, tieProducts]
  exact ⟨hlen, spec2proof_C2.2.1 tieProducts "price" 0 hlen⟩

/-! ## C5: conjunctive substring search -/

/-- Filtering by a conjunction equals the intersection of the two filters. -/
theorem filter_and_inter [DecidableEq α] (P Q : α → Bool) (l : List α) :
    l.filter (fun x => P x && Q x) = (l.filter P).inter (l.filter Q) := by
  have h1 : (l.filter P).inter (l.filter Q)
      = (l.filter P).filter (fun a => (l.filter Q).elem a) := rfl
  rw [h1, List.filter_filter]
  apply List.filter_congr
  intro x hx
  by_cases hq : Q x = true
  · simp [hq, List.elem_iff, List.mem_filter, hx]
  · simp only [Bool.not_eq_true] at hq
    simp [hq, List.elem_iff, List.mem_filter, hx]

/-- C5: searching with a two-token query returns exactly the intersection of
the single-token searches; a product is returned only if every token is a
substring of its searchable string; and an empty or whitespace-only query
returns the full collection unchanged. -/
theorem spec2proof_C5 :
    (∀ (l : List Product) (q qa qb : String) (a b : List Char),
      tokenize q = [a, b] → tokenize qa = [a] → tokenize qb = [b] →
      (q.data.all (·.isWhitespace)) = false →
      (qa.data.all (·.isWhitespace)) = false →
      (qb.data.all (·.isWhitespace)) = false →
      searchProducts l q = (searchProducts l qa).inter (searchProducts l qb)) ∧
    (∀ (l : List Product) (q : String) (p : Product),
      (q.data.all (·.isWhitespace)) = false →
      p ∈ searchProducts l q →
      ∀ t ∈ tokenize q, containsSeq t (searchableText p) = true) ∧
    (∀ (l : List Product) (q : String), (q.data.all (·.isWhitespace)) = true →
      searchProducts l q = l) := by
  refine ⟨?_, ?_, ?_⟩
  · intro l q qa qb a b hq hqa hqb hg hga hgb
    simp only [searchProducts, hg, hga, hgb, Bool.false_eq_true, if_false,
      hq, hqa, hqb, List.all_cons, List.all_nil, Bool.and_true]
    exact filter_and_inter _ _ _
  · intro l q p hg hp t ht
    simp only [searchProducts, hg, Bool.false_eq_true, if_false] at hp
    exact List.all_eq_true.1 (List.mem_filter.1 hp).2 t ht
  · intro l q hg
    simp [searchProducts, hg]

/-- C5 witness: on the search fixture, searching `"Red phone"` equals the
intersection of searching `"Red"` and `"phone"`. -/
theorem spec2proof_C5_witness :
    searchProducts searchFixture "Red phone"
      = (searchProducts searchFixture "Red").inter
          (searchProducts searchFixture "phone") :=
  spec2proof_C5.1 searchFixture "Red phone" "Red" "phone" "red".data "phone".data
    (by decide) (by decide) (by decide) (by decide) (by decide) (by decide)

/-! ## C7: expired or corrupted storage loads as an empty, re-persisted cart -/

/-- C7: loading yields an empty cart that is immediately re-persisted both
when the record's `savedAt` lies more than 30 days in the past and when the
persisted blob is unparsable or malformed; `loadFromStorage` is a total
function, so the corruption case surfaces no exception to the caller. -/
theorem spec2proof_C7 :
    (∀ (now savedAt : ℚ) (items : List CartItem),
      30 < (now - savedAt) / 86400000 →
      loadFromStorage now (some (.blob (some items) (some savedAt)))
        = ([], saveStorage now [])) ∧
    (∀ now : ℚ, loadFromStorage now (some .corrupt) = ([], saveStorage now [])) ∧
    (∀ (now : ℚ) (savedAt : Option ℚ),
      loadFromStorage now (some (.blob none savedAt))
        = ([], saveStorage now [])) := by
  refine ⟨?_, fun now => rfl, fun now savedAt => rfl⟩
  intro now savedAt items h
  simp [loadFromStorage, h]

/-- C7 witness: a record saved 31 days ago loads as an empty cart and the
empty state is persisted. -/
theorem spec2proof_C7_witness :
    (30 : ℚ) < ((31 * 86400000 : ℚ) - 0) / 86400000 ∧
    loadFromStorage (31 * 86400000)
        (some (.blob (some [plainItem "x" 2]) (some 0)))
      = ([], saveStorage (31 * 86400000) []) :=
  ⟨by norm_num, spec2proof_C7.1 (31 * 86400000) 0 [plainItem "x" 2] (by norm_num)⟩

/-! ## C8: export/import round-trip -/

/-- C8: `importCart (exportCart())` reproduces an identical line-item
collection; a missing blob or one whose `items` field is absent/not an array
fails with `false` leaving the prior collection untouched; a well-shaped blob
replaces the entire collection atomically (and persists it). -/
theorem spec2proof_C8 :
    (∀ (now now2 : ℚ) (st : CartState),
      (importCart now2 st (some (exportCart now st))).1 = true ∧
      (importCart now2 st (some (exportCart now st))).2.items = st.items) ∧
    (∀ (now : ℚ) (st : CartState), importCart now st none = (false, st)) ∧
    (∀ (now : ℚ) (st : CartState) (blob : CartExport), blob.items = none →
      importCart now st (some blob) = (false, st)) ∧
    (∀ (now : ℚ) (st : CartState) (blob : CartExport) (items : List CartItem),
      blob.items = some items →
      importCart now st (some blob)
        = (true, { items := items, storage := saveStorage now items })) := by
  refine ⟨fun now now2 st => ⟨rfl, rfl⟩, fun now st => rfl, ?_, ?_⟩
  · intro now st blob h
    simp [importCart, h]
  · intro now st blob items h
    simp [importCart, h]

/-- C8 witness: a wrong-shaped blob is rejected leaving a one-line cart
untouched, and the round trip reproduces that cart's line items. -/
theorem spec2proof_C8_witness :
    importCart 0 { items := [plainItem "a" 2], storage := none }
        (some { items := none, exportedAt := 0, version := "1.0" })
      = (false, { items := [plainItem "a" 2], storage := none }) ∧
    (importCart 1 { items := [plainItem "a" 2], storage := none }
        (some (exportCart 0 { items := [plainItem "a" 2], storage := none }))).2.items
      = [plainItem "a" 2] :=
  ⟨spec2proof_C8.2.2.1 0 _ _ rfl, (spec2proof_C8.1 0 1 _).2⟩

/-! ## C9: summary aggregates (tax, shipping threshold, total, rounding) -/

/-- When every line resolves in the live catalog, the summary's raw subtotal
is the exact per-line sum `quantity * price` (no per-line rounding). -/
theorem getCartItems_subtotal_of_resolvable (catalog : List Product)
    (items : List CartItem)
    (h : ∀ item ∈ items, (getProductById catalog item.id).isSome = true) :
    ((getCartItems catalog items).map (fun v => v.subtotal)).sum
      = subtotalOf catalog items := by
  induction items with
  | nil => rfl
  | cons item rest ih =>
    obtain ⟨p, hp⟩ := Option.isSome_iff_exists.1 (h item (List.mem_cons_self ..))
    have hrest : ∀ it ∈ rest, (getProductById catalog it.id).isSome = true :=
      fun it hit => h it (List.mem_cons_of_mem _ hit)
    simp only [getCartItems, subtotalOf, List.filterMap_cons, hp, List.map_cons,
      List.sum_cons] at ih ⊢
    rw [ih hrest]

/-- C9: when every line resolves to a live product, `getCartSummary` returns
`taxAmount = subtotal * 0.08`, `shippingCost = 0` iff `subtotal ≥ 50` (else
`9.99`), and `total = subtotal + tax + shipping`, every monetary output
rounded to 2 decimals only at aggregation over the exact unrounded subtotal. -/
theorem spec2proof_C9 (catalog : List Product) (items : List CartItem)
    (h : ∀ item ∈ items, (getProductById catalog item.id).isSome = true) :
    (getCartSummary catalog items).subtotal = round2 (subtotalOf catalog items) ∧
    (getCartSummary catalog items).taxAmount
      = round2 (subtotalOf catalog items * (8 / 100)) ∧
    (getCartSummary catalog items).shippingCost
      = (if 50 ≤ subtotalOf catalog items then 0 else 999 / 100) ∧
    (getCartSummary catalog items).total
      = round2 (subtotalOf catalog items
          + subtotalOf catalog items * (8 / 100)
          + (if 50 ≤ subtotalOf catalog items then 0 else (999 : ℚ) / 100)) := by
  have hs := getCartItems_subtotal_of_resolvable catalog items h
  simp only [getCartSummary, hs, TAX_RATE, SHIPPING_THRESHOLD, SHIPPING_COST]
  refine ⟨trivial, trivial, ?_, ?_⟩
  · split <;> norm_num [round2]
  · congr 1
    split <;> ring

/-- C9 witness: a $49.99 subtotal pays $9.99 shipping; a $50.00 subtotal
ships free. -/
theorem spec2proof_C9_witness :
    (getCartSummary summaryCatalog [plainItem "m1" 1]).shippingCost = 999 / 100 ∧
    (getCartSummary summaryCatalog [plainItem "m2" 1]).shippingCost = 0 := by
  have h1 : ∀ item ∈ [plainItem "m1" 1],
      (getProductById summaryCatalog item.id).isSome = true := by
    simp [getProductById, summaryCatalog, plainItem, baseProduct]
  have h2 : ∀ item ∈ [plainItem "m2" 1],
      (getProductById summaryCatalog item.id).isSome = true := by
    simp [getProductById, summaryCatalog, plainItem, baseProduct]
  have e1 : subtotalOf summaryCatalog [plainItem "m1" 1] = 4999 / 100 := by
    simp [subtotalOf, getProductById, summaryCatalog, plainItem, baseProduct]
  have e2 : subtotalOf summaryCatalog [plainItem "m2" 1] = 50 := by
    simp [subtotalOf, getProductById, summaryCatalog, plainItem, baseProduct]
  constructor
  · rw [(spec2proof_C9 summaryCatalog [plainItem "m1" 1] h1).2.2.1, e1]
    norm_num
  · rw [(spec2proof_C9 summaryCatalog [plainItem "m2" 1] h2).2.2.1, e2]
    norm_num

/-! ## C4 / C10: reconciliation and the silently-skipped line -/

/-- The `validateCart` loop produces exactly the four declarative
per-line classifications of the spec. -/
theorem validateLoop_eq (catalog : List Product) (now : ℚ) (l : List CartItem) :
    validateLoop catalog now l
      = (l.filterMap (specInvalidOf catalog),
         l.filterMap (specOutOfStockOf catalog),
         l.filterMap (specUpdatedOf catalog),
         l.filterMap (specKeepLine catalog now)) := by
  induction l with
  | nil => rfl
  | cons x xs ih =>
    simp only [validateLoop, ih, List.filterMap_cons]
    cases hx : getProductById catalog x.id with
    | none =>
      simp [specInvalidOf, specOutOfStockOf, specUpdatedOf, specKeepLine, hx]
    | some p =>
      cases hin : p.inStock with
      | false =>
        simp [specInvalidOf, specOutOfStockOf, specUpdatedOf, specKeepLine, hx, hin]
      | true =>
        by_cases hq : p.stock < x.quantity
        · simp [specInvalidOf, specOutOfStockOf, specUpdatedOf, specKeepLine,
            hx, hin, hq]
        · simp [specInvalidOf, specOutOfStockOf, specUpdatedOf, specKeepLine,
            hx, hin, hq]

/-- A line is dropped by reconciliation exactly when it yields an
`invalidItems` or an `outOfStockItems` entry. -/
theorem specDropped_iff (catalog : List Product) (a : CartItem) :
    specDropped catalog a = true ↔
      (specInvalidOf catalog a).isSome = true
        ∨ (specOutOfStockOf catalog a).isSome = true := by
  cases hx : getProductById catalog a.id with
  | none => simp [specDropped, specInvalidOf, specOutOfStockOf, hx]
  | some p =>
    cases hin : p.inStock <;>
      simp [specDropped, specInvalidOf, specOutOfStockOf, hx, hin]

/-- C4: `validateCart` moves each line whose product no longer exists to
`invalidItems` and drops it, moves each existing-but-out-of-stock line to
`outOfStockItems` and drops it, clamps each kept over-stock line down to
current stock recording it in `updatedItems`, persists the
post-reconciliation set, and returns `isValid = false` exactly when at least
one line was dropped (clamped-but-kept lines alone leave it `true`). -/
theorem spec2proof_C4 (catalog : List Product) (now : ℚ) (st : CartState) :
    (validateCart catalog now st).2.items
      = st.items.filterMap (specKeepLine catalog now) ∧
    (validateCart catalog now st).1.invalidItems
      = st.items.filterMap (specInvalidOf catalog) ∧
    (validateCart catalog now st).1.outOfStockItems
      = st.items.filterMap (specOutOfStockOf catalog) ∧
    (validateCart catalog now st).1.updatedItems
      = st.items.filterMap (specUpdatedOf catalog) ∧
    (validateCart catalog now st).2.storage
      = saveStorage now ((validateCart catalog now st).2.items) ∧
    ((validateCart catalog now st).1.isValid = false ↔
      ∃ item ∈ st.items, specDropped catalog item = true) := by
  have hchar : (0 < (st.items.filterMap (specInvalidOf catalog)).length
        ∨ 0 < (st.items.filterMap (specOutOfStockOf catalog)).length)
      ↔ ∃ item ∈ st.items, specDropped catalog item = true := by
    simp only [List.length_pos_iff_exists_mem, List.mem_filterMap]
    constructor
    · rintro (⟨e, a, ha, hae⟩ | ⟨e, a, ha, hae⟩)
      · exact ⟨a, ha, (specDropped_iff catalog a).2 (Or.inl (by simp [hae]))⟩
      · exact ⟨a, ha, (specDropped_iff catalog a).2 (Or.inr (by simp [hae]))⟩
    · rintro ⟨a, ha, hd⟩
      rcases (specDropped_iff catalog a).1 hd with h | h
      · obtain ⟨e, he⟩ := Option.isSome_iff_exists.1 h
        exact Or.inl ⟨e, a, ha, he⟩
      · obtain ⟨e, he⟩ := Option.isSome_iff_exists.1 h
        exact Or.inr ⟨e, a, ha, he⟩
  simp only [validateCart, validateLoop_eq]
  refine ⟨trivial, trivial, trivial, trivial, trivial, ?_⟩
  rw [← hchar]
  by_cases hc : (0 < (st.items.filterMap (specInvalidOf catalog)).length
      ∨ 0 < (st.items.filterMap (specOutOfStockOf catalog)).length)
  · simp [hc]
  · simp [hc]

/-- C10: a line whose product neither resolves in the live catalog nor
carries a stored snapshot is silently excluded from `getCartItems`, so it
contributes nothing to `getCartSummary` (subtotal, itemCount, items count);
it nevertheless remains in the stored cart, and a validation pass yields the
same surviving items as if the line were absent (it is removed). -/
theorem spec2proof_C10 (catalog : List Product) (pre post : List CartItem)
    (item : CartItem) (h1 : getProductById catalog item.id = none)
    (h2 : item.product = none) :
    getCartItems catalog (pre ++ item :: post)
      = getCartItems catalog (pre ++ post) ∧
    getCartSummary catalog (pre ++ item :: post)
      = getCartSummary catalog (pre ++ post) ∧
    item ∈ pre ++ item :: post ∧
    (∀ (now : ℚ) (stor : Option StoredCart),
      (validateCart catalog now ⟨pre ++ item :: post, stor⟩).2.items
        = (validateCart catalog now ⟨pre ++ post, stor⟩).2.items) := by
  have hitems : getCartItems catalog (pre ++ item :: post)
      = getCartItems catalog (pre ++ post) := by
    simp [getCartItems, List.filterMap_append, List.filterMap_cons, h1, h2]
  refine ⟨hitems, ?_, by simp, ?_⟩
  · simp only [getCartSummary, hitems]
  · intro now stor
    have hkeep : specKeepLine catalog now item = none := by
      simp [specKeepLine, h1]
    simp [validateCart, validateLoop_eq, List.filterMap_append,
      List.filterMap_cons, hkeep]

/-- C10 witness: a snapshot-less line for an unknown product contributes
nothing to the cart views. -/
theorem spec2proof_C10_witness :
    getCartItems stockFixtureCatalog [plainItem "p1" 1, plainItem "ghost" 2]
      = getCartItems stockFixtureCatalog [plainItem "p1" 1] ∧
    getCartSummary stockFixtureCatalog [plainItem "p1" 1, plainItem "ghost" 2]
      = getCartSummary stockFixtureCatalog [plainItem "p1" 1] := by
  have h := spec2proof_C10 stockFixtureCatalog [plainItem "p1" 1] []
    (plainItem "ghost" 2)
    (by simp [getProductById, stockFixtureCatalog, stockFixtureProduct,
      baseProduct, plainItem]) rfl
  exact ⟨h.1, h.2.1⟩

/-! ## C1: addItem failure taxonomy leaves the cart unchanged -/

/-- C1: for a valid request (non-empty id, positive quantity), `addItem`
fails with `ProductNotFoundError` when the product is unresolvable, with
`OutOfStockError` when `inStock` is false, with `StockExceededError` when
existing+requested exceeds live stock, and with `QuantityLimitError` when
that sum passes the stock check but exceeds the fixed maximum of 10; in
every failing case the stored line items (indeed the whole state) are left
unchanged. -/
theorem spec2proof_C1 (catalog : List Product) (now : ℚ) (st : CartState)
    (productId : String) (q : ℕ) (hpid : productId ≠ "") (hq : 1 ≤ q) :
    (getProductById catalog productId = none →
      addItem catalog now st productId q = (.error .productNotFound, st)) ∧
    (∀ product, getProductById catalog productId = some product →
      (product.inStock = false →
        addItem catalog now st productId q = (.error .outOfStock, st)) ∧
      (product.inStock = true →
        product.stock < getItemQuantity st.items productId + q →
        addItem catalog now st productId q = (.error .stockExceeded, st)) ∧
      (product.inStock = true →
        getItemQuantity st.items productId + q ≤ product.stock →
        MAX_QUANTITY < getItemQuantity st.items productId + q →
        addItem catalog now st productId q = (.error .quantityLimit, st))) ∧
    (∀ e, (addItem catalog now st productId q).1 = Except.error e →
      (addItem catalog now st productId q).2 = st) := by
  have hguard : ¬(productId = "" ∨ q < 1) := by
    push_neg
    exact ⟨hpid, by omega⟩
  refine ⟨?_, ?_, ?_⟩
  · intro hnone
    simp only [addItem, if_neg hguard, hnone]
  · intro product hsome
    refine ⟨?_, ?_, ?_⟩
    · intro hin
      simp only [addItem, if_neg hguard, hsome, hin, Bool.not_false, if_pos]
    · intro hin hstock
      simp only [addItem, if_neg hguard, hsome, hin, Bool.not_true,
        Bool.false_eq_true, if_false, if_pos hstock]
    · intro hin hstock hmax
      simp only [addItem, if_neg hguard, hsome, hin, Bool.not_true,
        Bool.false_eq_true, if_false, if_neg (not_lt.2 hstock), if_pos hmax]
  · intro e
    simp only [addItem, if_neg hguard]
    cases hfind : getProductById catalog productId with
    | none => intro _; rfl
    | some product =>
      cases hin : product.inStock with
      | false =>
        intro _
        simp [hin]
      | true =>
        simp only [hin, Bool.not_true, Bool.false_eq_true, if_false]
        by_cases hstock : product.stock < getItemQuantity st.items productId + q
        · rw [if_pos hstock]
          intro _; rfl
        · rw [if_neg hstock]
          by_cases hmax : MAX_QUANTITY < getItemQuantity st.items productId + q
          · rw [if_pos hmax]
            intro _; rfl
          · rw [if_neg hmax]
            intro hcontra
            exact absurd hcontra (by simp)

/-- C1 witness: with `stock = 5` and an existing stored quantity of 4,
requesting 2 more fails with the stock-exceeded error and leaves the stored
quantity at 4. -/
theorem spec2proof_C1_witness :
    addItem stockFixtureCatalog 7 stockFixtureCart "p1" 2
      = (.error .stockExceeded, stockFixtureCart) ∧
    getItemQuantity
      (addItem stockFixtureCatalog 7 stockFixtureCart "p1" 2).2.items "p1" = 4 := by
  have hfind : getProductById stockFixtureCatalog "p1"
      = some stockFixtureProduct := by
    simp [getProductById, stockFixtureCatalog, stockFixtureProduct, baseProduct]
  have h := ((spec2proof_C1 stockFixtureCatalog 7 stockFixtureCart "p1" 2
      (by decide) (by decide)).2.1 _ hfind).2.1 rfl (by decide)
  refine ⟨h, ?_⟩
  rw [h]
  decide

/-! ## C3: the CartItem invariant across operations -/

/-- Mapping a function that the in-place update leaves unchanged ignores the
update. -/
theorem updateFirst_map (p : α → Bool) (f : α → α) (g : α → β)
    (hf : ∀ x, p x = true → g (f x) = g x) :
    ∀ l : List α, (updateFirst p f l).map g = l.map g := by
  intro l
  induction l with
  | nil => rfl
  | cons y ys ih =>
    by_cases hy : p y = true
    · simp [updateFirst, hy, hf y hy]
    · simp [updateFirst, hy, ih]

/-- Every element of the updated list is an original element or the image of
the first match (the one `find?` returns). -/
theorem mem_updateFirst_find (p : α → Bool) (f : α → α) {l : List α} {a : α}
    (hfind : l.find? p = some a) :
    ∀ x ∈ updateFirst p f l, x ∈ l ∨ x = f a := by
  induction l with
  | nil => simp [updateFirst]
  | cons y ys ih =>
    by_cases hy : p y = true
    · rw [List.find?_cons_of_pos _ hy, Option.some_inj] at hfind
      subst hfind
      intro x hx
      rcases List.mem_cons.1 (by simpa [updateFirst, hy] using hx) with h | h
      · exact Or.inr h
      · exact Or.inl (List.mem_cons_of_mem _ h)
    · rw [List.find?_cons_of_neg _ hy] at hfind
      intro x hx
      rcases List.mem_cons.1 (by simpa [updateFirst, hy] using hx) with h | h
      · exact Or.inl (h ▸ List.mem_cons_self ..)
      · rcases ih hfind x h with h2 | h2
        · exact Or.inl (List.mem_cons_of_mem _ h2)
        · exact Or.inr h2

/-- Erasing the first match yields a sublist. -/
theorem eraseFirst_sublist (p : α → Bool) :
    ∀ l : List α, (eraseFirst p l).Sublist l := by
  intro l
  induction l with
  | nil => simp [eraseFirst]
  | cons y ys ih =>
    by_cases hy : p y = true
    · simp only [eraseFirst, hy, if_true]
      exact List.sublist_cons_self y ys
    · simpa [eraseFirst, hy] using ih.cons₂ y

/-- A product id matching no line has stored quantity 0. -/
theorem getItemQuantity_eq_zero_of_not_any {items : List CartItem}
    {productId : String}
    (h : items.any (fun item => item.id == productId) = false) :
    getItemQuantity items productId = 0 := by
  have : items.find? (fun item => item.id == productId) = none := by
    rw [List.find?_eq_none]
    intro x hx
    simp only [List.any_eq_false] at h
    exact h x hx
  simp [getItemQuantity, this]

/-- Reconciliation never changes a kept line's product id. -/
theorem specKeepLine_id {catalog : List Product} {now : ℚ} {a b : CartItem}
    (h : specKeepLine catalog now a = some b) : b.id = a.id := by
  unfold specKeepLine at h
  cases hx : getProductById catalog a.id with
  | none => simp [hx] at h
  | some p =>
    rw [hx] at h
    cases hin : p.inStock with
    | false => simp [hin] at h
    | true =>
      by_cases hq : p.stock < a.quantity
      · simp only [hin, Bool.not_true, Bool.false_eq_true, if_false, if_pos hq,
          Option.some_inj] at h
        subst h
        rfl
      · simp only [hin, Bool.not_true, Bool.false_eq_true, if_false, if_neg hq,
          Option.some_inj] at h
        subst h
        rfl

/-- The ids of the reconciled lines form a sublist of the original ids. -/
theorem filterMap_keepLine_ids_sublist (catalog : List Product) (now : ℚ) :
    ∀ l : List CartItem,
      ((l.filterMap (specKeepLine catalog now)).map (fun i => i.id)).Sublist
        (l.map (fun i => i.id)) := by
  intro l
  induction l with
  | nil => simp
  | cons x xs ih =>
    rw [List.filterMap_cons]
    cases hk : specKeepLine catalog now x with
    | none =>
      simp only [List.map_cons]
      exact ih.cons _
    | some b =>
      simp only [List.map_cons, specKeepLine_id hk]
      exact ih.cons₂ _

/-- The operation `addItem` preserves the cart invariant (its own checks enforce every
bound on the touched line). -/
theorem addItem_preserves_inv (catalog : List Product) (now : ℚ) (st : CartState)
    (hinv : CartInv catalog st.items) (productId : String) (q : ℕ) :
    CartInv catalog (addItem catalog now st productId q).2.items := by
  by_cases h0 : productId = "" ∨ q < 1
  · simpa only [addItem, if_pos h0] using hinv
  cases hfind : getProductById catalog productId with
  | none => simpa only [addItem, if_neg h0, hfind] using hinv
  | some product =>
    cases hin : product.inStock with
    | false =>
      simpa only [addItem, if_neg h0, hfind, hin, Bool.not_false, if_true] using hinv
    | true =>
      by_cases hstock : product.stock < getItemQuantity st.items productId + q
      · simpa only [addItem, if_neg h0, hfind, hin, Bool.not_true,
          Bool.false_eq_true, if_false, if_pos hstock] using hinv
      by_cases hmax : MAX_QUANTITY < getItemQuantity st.items productId + q
      · simpa only [addItem, if_neg h0, hfind, hin, Bool.not_true,
          Bool.false_eq_true, if_false, if_neg hstock, if_pos hmax] using hinv
      have hq1 : 1 ≤ q := by
        push_neg at h0
        omega
      have hqle10 : getItemQuantity st.items productId + q ≤ MAX_QUANTITY :=
        not_lt.1 hmax
      have hqlestock : getItemQuantity st.items productId + q ≤ product.stock :=
        not_lt.1 hstock
      have hpid : product.id = productId := by
        have h := List.find?_some hfind
        simpa using h
      by_cases hany : st.items.any (fun item => item.id == productId) = true
      · simp only [addItem, if_neg h0, hfind, hin, Bool.not_true,
          Bool.false_eq_true, if_false, if_neg hstock, if_neg hmax, hany, if_true]
        obtain ⟨a, ha⟩ : ∃ a,
            st.items.find? (fun item => item.id == productId) = some a := by
          rcases List.any_eq_true.1 hany with ⟨x, hx, hpx⟩
          cases hf2 : st.items.find? (fun item => item.id == productId) with
          | some a => exact ⟨a, rfl⟩
          | none => exact absurd hpx (by simpa using List.find?_eq_none.1 hf2 x hx)
        have haid : a.id = productId := by simpa using List.find?_some ha
        have hcur : getItemQuantity st.items productId = a.quantity := by
          simp [getItemQuantity, ha]
        constructor
        · intro x hx
          rcases mem_updateFirst_find _ _ ha x hx with hmem | hfa
          · exact hinv.1 x hmem
          · subst hfa
            rw [hcur] at hqle10 hqlestock
            simp only [itemInvB, haid, hfind, MAX_QUANTITY, Bool.and_eq_true,
              decide_eq_true_eq]
            simp only [MAX_QUANTITY] at hqle10
            exact ⟨⟨by omega, by omega⟩, by omega⟩
        · have hmap := updateFirst_map (fun item => item.id == productId)
            (fun item => { item with
              quantity := getItemQuantity st.items productId + q,
              updatedAt := now })
            (fun item => item.id) (fun x _ => rfl) st.items
          rw [hmap]
          exact hinv.2
      · have hany' : st.items.any (fun item => item.id == productId) = false :=
          Bool.eq_false_iff.2 hany
        have hcur0 : getItemQuantity st.items productId = 0 :=
          getItemQuantity_eq_zero_of_not_any hany'
        rw [hcur0] at hqle10 hqlestock
        simp only [Nat.zero_add] at hqle10 hqlestock
        simp only [addItem, if_neg h0, hfind, hin, Bool.not_true,
          Bool.false_eq_true, if_false, if_neg hstock, if_neg hmax, hany',
          if_false]
        constructor
        · intro x hx
          rcases List.mem_append.1 hx with hmem | hnew
          · exact hinv.1 x hmem
          · have hx2 := List.mem_singleton.1 hnew
            subst hx2
            simp only [itemInvB, hpid, hfind, MAX_QUANTITY, Bool.and_eq_true,
              decide_eq_true_eq]
            simp only [MAX_QUANTITY] at hqle10
            exact ⟨⟨by omega, by omega⟩, by omega⟩
        · rw [List.map_append]
          simp only [List.map_cons, List.map_nil]
          rw [List.nodup_append]
          refine ⟨hinv.2, by simp, ?_⟩
          intro b hb hb2
          simp only [List.mem_singleton] at hb2
          subst hb2
          rcases List.mem_map.1 hb with ⟨it, hit, hitid⟩
          have hne := List.any_eq_false.1 hany' it hit
          rw [hpid] at hitid
          exact hne (by simp [hitid])

/-- Deleting a line preserves the cart invariant. -/
theorem eraseFirst_preserves_inv (catalog : List Product) (p : CartItem → Bool)
    {items : List CartItem} (hinv : CartInv catalog items) :
    CartInv catalog (eraseFirst p items) := by
  refine ⟨fun x hx => hinv.1 x ((eraseFirst_sublist p items).subset hx), ?_⟩
  exact List.Nodup.sublist ((eraseFirst_sublist p items).map _) hinv.2

/-- The operation `removeItem` preserves the cart invariant (deletion or a decrement that
stays positive). -/
theorem removeItem_preserves_inv (catalog : List Product) (now : ℚ)
    (st : CartState) (hinv : CartInv catalog st.items) (productId : String)
    (q : Option ℕ) :
    CartInv catalog (removeItem now st productId q).2.items := by
  cases hfind : st.items.find? (fun item => item.id == productId) with
  | none => simpa only [removeItem, hfind] using hinv
  | some item =>
    have hitem := hinv.1 item (List.mem_of_find?_eq_some hfind)
    simp only [itemInvB, Bool.and_eq_true, decide_eq_true_eq] at hitem
    cases q with
    | none =>
      simp only [removeItem, hfind]
      exact eraseFirst_preserves_inv catalog _ hinv
    | some qq =>
      by_cases hge : item.quantity ≤ qq
      · simp only [removeItem, hfind, hge, decide_eq_true_eq, if_pos]
        exact eraseFirst_preserves_inv catalog _ hinv
      · simp only [removeItem, hfind, decide_eq_true_eq, if_neg hge]
        constructor
        · intro x hx
          rcases mem_updateFirst_find _ _ hfind x hx with hmem2 | hfa
          · exact hinv.1 x hmem2
          · subst hfa
            simp only [itemInvB, Option.getD_some, Bool.and_eq_true,
              decide_eq_true_eq]
            refine ⟨⟨by omega, by omega⟩, ?_⟩
            rcases hitem with ⟨-, hmatch⟩
            cases hlook : getProductById catalog item.id with
            | none => simp [hlook]
            | some pr =>
              rw [hlook] at hmatch
              simp only [decide_eq_true_eq] at hmatch
              simp only [hlook, decide_eq_true_eq]
              omega
        · have hmap := updateFirst_map (fun i => i.id == productId)
            (fun i => { i with
              quantity := i.quantity - (some qq).getD 0, updatedAt := now })
            (fun i => i.id) (fun x _ => rfl) st.items
          rw [hmap]
          exact hinv.2


/-- The operation `updateItemQuantity` preserves the cart invariant (maximum and, when the
product resolves, stock are checked; 0 delegates to removal). -/
theorem updateItemQuantity_preserves_inv (catalog : List Product) (now : ℚ)
    (st : CartState) (hinv : CartInv catalog st.items) (productId : String)
    (quantity : ℕ) :
    CartInv catalog
      (updateItemQuantity catalog now st productId quantity).2.items := by
  by_cases h0 : productId = ""
  · simpa only [updateItemQuantity, if_pos h0] using hinv
  by_cases hmax : MAX_QUANTITY < quantity
  · simpa only [updateItemQuantity, if_neg h0, if_pos hmax] using hinv
  cases hfind : st.items.find? (fun item => item.id == productId) with
  | none =>
    simpa only [updateItemQuantity, if_neg h0, if_neg hmax, hfind] using hinv
  | some a =>
    have haid : a.id = productId := by simpa using List.find?_some hfind
    have hupd : (∀ pr, getProductById catalog productId = some pr →
          quantity ≤ pr.stock) → 0 < quantity →
        CartInv catalog
          (updateFirst (fun item => item.id == productId)
            (fun item => { item with quantity := quantity, updatedAt := now })
            st.items) := by
      intro hsb hpos
      constructor
      · intro x hx
        rcases mem_updateFirst_find _ _ hfind x hx with hmem | hfa
        · exact hinv.1 x hmem
        · subst hfa
          simp only [itemInvB, Bool.and_eq_true, decide_eq_true_eq, haid]
          refine ⟨⟨hpos, by omega⟩, ?_⟩
          cases hlook2 : getProductById catalog productId with
          | none => simp [hlook2]
          | some pr =>
            simp only [hlook2, decide_eq_true_eq]
            exact hsb pr hlook2
      · have hmap := updateFirst_map (fun i => i.id == productId)
          (fun i => { i with quantity := quantity, updatedAt := now })
          (fun i => i.id) (fun x _ => rfl) st.items
        rw [hmap]
        exact hinv.2
    cases hlook : getProductById catalog productId with
    | none =>
      by_cases hz : quantity = 0
      · simp only [updateItemQuantity, if_neg h0, if_neg hmax, hfind, hlook,
          Bool.not_true, Bool.false_eq_true, if_false, if_pos hz]
        exact removeItem_preserves_inv catalog now st hinv productId none
      · simp only [updateItemQuantity, if_neg h0, if_neg hmax, hfind, hlook,
          Bool.not_true, Bool.false_eq_true, if_false, if_neg hz]
        exact hupd (fun pr hpr => absurd hpr (by rw [hlook]; simp)) (by omega)
    | some product =>
      by_cases hsOk : quantity ≤ product.stock
      · have hd : decide (quantity ≤ product.stock) = true := decide_eq_true hsOk
        by_cases hz : quantity = 0
        · simp only [updateItemQuantity, if_neg h0, if_neg hmax, hfind, hlook,
            hd, Bool.not_true, Bool.false_eq_true, if_false, if_pos hz]
          exact removeItem_preserves_inv catalog now st hinv productId none
        · simp only [updateItemQuantity, if_neg h0, if_neg hmax, hfind, hlook,
            hd, Bool.not_true, Bool.false_eq_true, if_false, if_neg hz]
          refine hupd (fun pr hpr => ?_) (by omega)
          rw [hlook, Option.some_inj] at hpr
          subst hpr
          exact hsOk
      · have hd : decide (quantity ≤ product.stock) = false := by
          simp [hsOk]
        simpa only [updateItemQuantity, if_neg h0, if_neg hmax, hfind, hlook,
          hd, Bool.not_false, if_true] using hinv

/-- The operation `validateCart` preserves the cart invariant (clamping keeps quantities
positive and within every bound). -/
theorem validateCart_preserves_inv (catalog : List Product) (now : ℚ)
    (st : CartState) (hinv : CartInv catalog st.items) :
    CartInv catalog (validateCart catalog now st).2.items := by
  have hitems : (validateCart catalog now st).2.items
      = st.items.filterMap (specKeepLine catalog now) := by
    simp only [validateCart, validateLoop_eq]
  rw [hitems]
  constructor
  · intro x hx
    rcases List.mem_filterMap.1 hx with ⟨a, ha, hka⟩
    have hia := hinv.1 a ha
    simp only [itemInvB, Bool.and_eq_true, decide_eq_true_eq] at hia
    unfold specKeepLine at hka
    cases hlook : getProductById catalog a.id with
    | none =>
      rw [hlook] at hka
      cases hka
    | some p =>
      rw [hlook] at hka
      dsimp only at hka
      cases hin : p.inStock with
      | false =>
        rw [hin] at hka
        simp at hka
      | true =>
        rw [hin] at hka
        simp only [Bool.not_true, Bool.false_eq_true, if_false] at hka
        by_cases hq : p.stock < a.quantity
        · rw [if_pos hq, Option.some_inj] at hka
          subst hka
          have hstpos : 0 < p.stock := by simpa [Product.inStock] using hin
          simp only [itemInvB, hlook, Bool.and_eq_true, decide_eq_true_eq]
          rcases hia with ⟨⟨-, hle10⟩, -⟩
          exact ⟨⟨hstpos, by omega⟩, by omega⟩
        · rw [if_neg hq, Option.some_inj] at hka
          subst hka
          exact hinv.1 a ha
  · exact List.Nodup.sublist (filterMap_keepLine_ids_sublist catalog now st.items)
      hinv.2

/-- C3 counterexample: `importCart` performs no quantity validation — a
completed import can leave a line with quantity 99 > MAX_QUANTITY in the
cart, refuting the claim for the full operation list. -/
theorem spec2proof_C3_counterexample :
    (importCart 0 { items := [], storage := none }
        (some { items := some [plainItem "p1" 99], exportedAt := 0,
                version := "1.0" })).1 = true ∧
    ¬ CartInv []
        (importCart 0 { items := [], storage := none }
          (some { items := some [plainItem "p1" 99], exportedAt := 0,
                  version := "1.0" })).2.items := by
  refine ⟨rfl, ?_⟩
  rintro ⟨hall, -⟩
  have h := hall (plainItem "p1" 99) (by simp [importCart])
  simp [itemInvB, MAX_QUANTITY, plainItem, getProductById] at h

/-- C3 (amended): starting from a cart satisfying the invariant (positive
quantities ≤ 10 and ≤ live stock when resolvable, at most one line per
product id), every completed `addItem`, `removeItem`, `updateItemQuantity`,
and `validateCart` preserves it; `mergeCart`, `importCart`, and load from
storage perform no quantity validation and can violate it (see the
counterexample). -/
theorem spec2proof_C3 (catalog : List Product) (now : ℚ) (st : CartState)
    (hinv : CartInv catalog st.items) :
    (∀ (productId : String) (q : ℕ),
      CartInv catalog (addItem catalog now st productId q).2.items) ∧
    (∀ (productId : String) (q : Option ℕ),
      CartInv catalog (removeItem now st productId q).2.items) ∧
    (∀ (productId : String) (q : ℕ),
      CartInv catalog (updateItemQuantity catalog now st productId q).2.items) ∧
    CartInv catalog (validateCart catalog now st).2.items :=
  ⟨fun productId q => addItem_preserves_inv catalog now st hinv productId q,
   fun productId q => removeItem_preserves_inv catalog now st hinv productId q,
   fun productId q =>
     updateItemQuantity_preserves_inv catalog now st hinv productId q,
   validateCart_preserves_inv catalog now st hinv⟩

/-- C3 witness: the empty cart satisfies the invariant and adding 2 units of
the stock-5 product keeps it satisfied. -/
theorem spec2proof_C3_witness :
    CartInv stockFixtureCatalog ([] : List CartItem) ∧
    CartInv stockFixtureCatalog
      (addItem stockFixtureCatalog 0 { items := [], storage := none }
        "p1" 2).2.items := by
  have hinv : CartInv stockFixtureCatalog
      (({ items := [], storage := none } : CartState)).items :=
    ⟨by simp, by simp⟩
  exact ⟨hinv, (spec2proof_C3 stockFixtureCatalog 0 _ hinv).1 "p1" 2⟩
